import Mathlib

/-!
Verification of the Eat Wise nutrition pipeline (`server/streamlit_app.py`).

The Python values flowing through the pipeline (results of `json.loads`,
dictionaries, lists, numbers, strings) are embedded as the inductive type
`PyVal`.  Python `dict`s are association lists with string keys; assignment
`d[k] = v` replaces the value at the first occurrence of `k` in place and
appends at the end when `k` is absent, exactly like insertion order in a
Python dict.  Python `float`s are idealised as rationals (`ℚ`): binary
floating-point representation error is out of scope, but `int` versus
`float` is tracked because the source discriminates with
`isinstance(v, (int, float))` and `bool` is an `int` subclass in Python.
-/

/-- Powers of ten as integers. -/
def pow10 : Nat → Int
  | 0 => 1
  | n + 1 => 10 * pow10 n

/-- Exact decimal number `m / 10 ^ e`, the idealisation of a Python
`float` in this pipeline (every float it manipulates is produced from a
decimal literal, decimal string, addition, or `round(·, 1)`, so the
denominator is always a power of ten). -/
structure Dec where
  m : Int
  e : Nat
deriving DecidableEq, Repr

/-- Rational value of a decimal; used only in specification statements. -/
def Dec.toQ (d : Dec) : ℚ := (d.m : ℚ) / ((pow10 d.e : Int) : ℚ)

/-- Canonical form: strip factors of ten shared by mantissa and exponent,
so that value equality of pipeline floats is representation equality. -/
def Dec.norm (m : Int) : Nat → Dec
  | 0 => ⟨m, 0⟩
  | e + 1 => if m.emod 10 = 0 then Dec.norm (m.ediv 10) e else ⟨m, e + 1⟩

/-- Exact addition of decimals (Python float addition, idealised). -/
def Dec.add (a b : Dec) : Dec :=
  if a.e ≤ b.e then Dec.norm (a.m * pow10 (b.e - a.e) + b.m) b.e
  else Dec.norm (a.m + b.m * pow10 (a.e - b.e)) a.e

/-- Python `round(d, 1)` on a decimal: round half to even at one decimal
place.  A value with at most one decimal digit is unchanged. -/
def Dec.round1 (d : Dec) : Dec :=
  if d.e ≤ 1 then d
  else
    let p := pow10 (d.e - 1)
    let q := d.m.ediv p
    let r := d.m.emod p
    let n : Int :=
      if 2 * r < p then q
      else if p < 2 * r then q + 1
      else if q.emod 2 = 0 then q else q + 1
    Dec.norm n 1

inductive PyVal where
  | none
  | bool (b : Bool)
  | int (n : Int)
  | float (d : Dec)
  | str (s : String)
  | list (xs : List PyVal)
  | dict (entries : List (String × PyVal))
deriving Repr

/-- Lookup of a key in a Python dict (first occurrence). -/
def dictGet (d : List (String × PyVal)) (k : String) : Option PyVal :=
  match d with
  | [] => Option.none
  | (k', v) :: rest => if k' = k then some v else dictGet rest k

/-- Python `d.get(k, dflt)`. -/
def pyGetD (d : List (String × PyVal)) (k : String) (dflt : PyVal) : PyVal :=
  (dictGet d k).getD dflt

/-- Python dict assignment `d[k] = v`: replace the value at the first
occurrence of `k` keeping its position, or append when `k` is absent. -/
def setKey (d : List (String × PyVal)) (k : String) (v : PyVal) :
    List (String × PyVal) :=
  match d with
  | [] => [(k, v)]
  | (k', v') :: rest =>
      if k' = k then (k', v) :: rest else (k', v') :: setKey rest k v

/-- Python truthiness: `not x` is true exactly on these values. -/
def pyFalsy : PyVal → Bool
  | .none => true
  | .bool b => !b
  | .int n => n == 0
  | .float d => d.m == 0
  | .str s => s == ""
  | .list xs => xs.isEmpty
  | .dict es => es.isEmpty

/-- Python `str.lower()` restricted to the ASCII case folding that the
keyword table exercises. -/
def pyLower (s : String) : String := String.mk (s.data.map Char.toLower)

/-- Character-list test: `n` is a leading block of the second list. -/
def prefixEq : List Char → List Char → Bool
  | [], _ => true
  | _ :: _, [] => false
  | a :: as, b :: bs => a == b && prefixEq as bs

/-- Character-list substring test used to model the Python `in` operator. -/
def subIn (n : List Char) : List Char → Bool
  | [] => n.isEmpty
  | c :: t => prefixEq n (c :: t) || subIn n t

/-- Python substring operator `needle in hay` on strings. -/
def strIn (needle hay : String) : Bool := subIn needle.data hay.data

/-- Python `isinstance(v, (int, float))`; `bool` is an `int` subclass. -/
def pyIsNumeric : PyVal → Bool
  | .int _ => true
  | .float _ => true
  | .bool _ => true
  | _ => false

/-- Decimal value of a Python number, `float(v)` (0 on non-numbers,
where it is never used). -/
def pyToDec : PyVal → Dec
  | .int n => ⟨n, 0⟩
  | .float d => d
  | .bool b => ⟨if b then 1 else 0, 0⟩
  | _ => ⟨0, 0⟩

/-- Rational value of a Python number; used only in specification
statements. -/
def pyToQ (v : PyVal) : ℚ := (pyToDec v).toQ

/-- Python addition on numbers: `int`-like plus `int`-like stays `int`
(`True + 0 == 1`), anything involving a `float` is a `float`. -/
def toIntLike : PyVal → Option Int
  | .int n => some n
  | .bool b => some (if b then 1 else 0)
  | _ => Option.none

def pyAddNum (a b : PyVal) : PyVal :=
  match toIntLike a, toIntLike b with
  | some x, some y => .int (x + y)
  | _, _ => .float (Dec.add (pyToDec a) (pyToDec b))

/-- Python `round(v, 1)`: an `int` is returned unchanged, a `float` is
rounded to one decimal place. -/
def pyRound1 : PyVal → PyVal
  | .int n => .int n
  | .float d => .float d.round1
  | v => v

/-- The static `RESTRICTION_KEYWORDS` table from the source. -/
def RESTRICTION_KEYWORDS : List (String × List String) :=
  [ ("Vegetarian",
      ["chicken", "beef", "pork", "fish", "salmon", "tuna", "turkey", "lamb",
       "bacon", "ham", "sausage", "shrimp", "seafood", "meat", "duck", "veal",
       "venison", "anchovy"]),
    ("Vegan",
      ["chicken", "beef", "pork", "fish", "salmon", "tuna", "turkey", "lamb",
       "bacon", "ham", "sausage", "shrimp", "seafood", "meat", "duck", "veal",
       "venison", "anchovy", "milk", "cheese", "butter", "yogurt", "cream",
       "egg", "eggs", "honey"]),
    ("Dairy-free", ["milk", "cheese", "butter", "yogurt", "cream", "ice cream"]),
    ("Gluten-free",
      ["bread", "wheat", "pasta", "flour", "beer", "barley", "rye", "seitan",
       "breadcrumbs", "croutons"]),
    ("Nut-free",
      ["almond", "peanut", "peanuts", "cashew", "walnut", "pecan", "hazelnut",
       "brazil nut", "macadamia", "nut"]),
    ("Halal", ["pork", "alcohol", "wine", "beer"]),
    ("Kosher", ["pork", "shrimp", "crab", "lobster", "shellfish"]) ]

/-- Python `RESTRICTION_KEYWORDS.get(r, [])`. -/
def keywordsFor (r : String) : List String :=
  match RESTRICTION_KEYWORDS.find? (fun p => p.1 = r) with
  | some p => p.2
  | Option.none => []

/-- The source's `violates_restrictions(item_name, restrictions_list)`.
The item name is an arbitrary Python value (`it.get("name", "")`); a falsy
name or an empty restriction list short-circuits to `False`; a truthy
non-string name raises `AttributeError` on `.lower()`, which we model in
`Except`.  The `continue` for the `"nut"` keyword when the name contains
`"donut"` skips only that keyword. -/
def violates_restrictions (item_name : PyVal) (restrictions_list : List String) :
    Except String Bool :=
  if pyFalsy item_name || restrictions_list.isEmpty then .ok false
  else
    match item_name with
    | .str s =>
        let name := pyLower s
        .ok (restrictions_list.any fun r =>
          (keywordsFor r).any fun kw =>
            strIn kw name && !(kw == "nut" && strIn "donut" name))
    | _ => .error "AttributeError"

/-- Name used for an item in the filter loop:
`it.get("name", "") if isinstance(it, dict) else ""`. -/
def getName (it : PyVal) : PyVal :=
  match it with
  | .dict d => pyGetD d "name" (.str "")
  | _ => .str ""

/-- Label appended to the removal report, `name or json.dumps(it)`.  An
item is only ever removed when `violates_restrictions` returned `True`,
which requires a truthy string name, so the `json.dumps` fallback for a
falsy name is unreachable and the label is the name itself. -/
def removedLabel (name : PyVal) : String :=
  match name with
  | .str s => s
  | _ => ""

/-- The keep/remove loop of `filter_items_by_restrictions`, in item order. -/
def processItems (items : List PyVal) (rs : List String) :
    Except String (List PyVal × List String) :=
  match items with
  | [] => .ok ([], [])
  | it :: rest =>
      match violates_restrictions (getName it) rs with
      | .error e => .error e
      | .ok v =>
          match processItems rest rs with
          | .error e => .error e
          | .ok (k, r) =>
              if v then .ok (k, removedLabel (getName it) :: r)
              else .ok (it :: k, r)

/-- Accumulator of the totals loop: the four running sums.  In the source
`calories` starts as the `int` `0` and the other three as the `float`
`0.0`, so the `int`/`float` kind of each sum is tracked through
`pyAddNum`. -/
structure TotalsAcc where
  calories : PyVal
  protein_g : PyVal
  carbs_g : PyVal
  fat_g : PyVal

def initTotals : TotalsAcc :=
  ⟨.int 0, .float ⟨0, 0⟩, .float ⟨0, 0⟩, .float ⟨0, 0⟩⟩

/-- One field update inside the totals loop:
`if key in it and isinstance(it[key], (int, float)): total += it[key]`.
Returns the new running sum and whether this field contributed. -/
def updField (d : List (String × PyVal)) (key : String) (cur : PyVal) :
    PyVal × Bool :=
  match dictGet d key with
  | some v => if pyIsNumeric v then (pyAddNum cur v, true) else (cur, false)
  | Option.none => (cur, false)

/-- One iteration of the totals loop over a kept item; non-dict items are
skipped (`continue`). -/
def addItemTotals (acc : TotalsAcc × Bool) (it : PyVal) : TotalsAcc × Bool :=
  match it with
  | .dict d =>
      let (t, anyNum) := acc
      let (c, bc) := updField d "calories_estimate" t.calories
      let (p, bp) := updField d "protein_g" t.protein_g
      let (cb, bcb) := updField d "carbs_g" t.carbs_g
      let (f, bf) := updField d "fat_g" t.fat_g
      (⟨c, p, cb, f⟩, anyNum || bc || bp || bcb || bf)
  | _ => acc

/-- The totals loop of `filter_items_by_restrictions` over the kept items,
left to right, returning the sums and the `any_numeric` flag. -/
def computeTotalsFrom (acc : TotalsAcc × Bool) : List PyVal → TotalsAcc × Bool
  | [] => acc
  | it :: rest => computeTotalsFrom (addItemTotals acc it) rest

def computeTotals (kept : List PyVal) : TotalsAcc × Bool :=
  computeTotalsFrom (initTotals, false) kept

/-- The dict written to `parsed["totals"]` when `any_numeric` is set. -/
def totalsDict (t : TotalsAcc) : PyVal :=
  .dict
    [ ("calories", pyRound1 t.calories),
      ("protein_g", pyRound1 t.protein_g),
      ("carbs_g", pyRound1 t.carbs_g),
      ("fat_g", pyRound1 t.fat_g) ]

/-- The source's `filter_items_by_restrictions(parsed, restrictions_list)`.
A non-dict `parsed`, or an `"items"` entry that is missing or not a list,
is returned unchanged with an empty removal report.  Otherwise the items
are filtered, `parsed["items"]` is reassigned, and `parsed["totals"]` is
overwritten with the recomputed sums exactly when some surviving item
contributed a numeric (`int`/`float`) field.  The `try`/`except` around
the totals block guards arithmetic that cannot in fact raise, so it is not
modelled; the keep/remove loop can raise `AttributeError` (see
`violates_restrictions`), which propagates out of the function. -/
def filter_items_by_restrictions (parsed : PyVal) (restrictions_list : List String) :
    Except String (PyVal × List String) :=
  match parsed with
  | .dict d =>
      match dictGet d "items" with
      | some (.list items) =>
          match processItems items restrictions_list with
          | .error e => .error e
          | .ok (kept, removed) =>
              let d1 := setKey d "items" (.list kept)
              match computeTotals kept with
              | (t, any_numeric) =>
                  .ok (.dict (if any_numeric
                    then setKey d1 "totals" (totalsDict t) else d1), removed)
      | _ => .ok (parsed, [])
  | _ => .ok (parsed, [])

/-- Whitespace for Python `str.strip()` (the ASCII part that the pipeline
can encounter). -/
def pyWs (c : Char) : Bool :=
  c = ' ' || c = '\t' || c = '\n' || c = '\r' || c = '\x0b' || c = '\x0c'

/-- Python `s.strip()`. -/
def pyStrip (s : String) : String :=
  String.mk (((s.data.dropWhile pyWs).reverse.dropWhile pyWs).reverse)

/-- Value of a run of decimal digits. -/
def digitsVal (cs : List Char) : Nat :=
  cs.foldl (fun a c => 10 * a + (c.toNat - 48)) 0

/-- Match of the source's numeric-string pattern after the optional
minus sign: digits, optionally a dot and more digits. -/
def numLitCore (cs : List Char) : Bool :=
  let ds := cs.takeWhile (·.isDigit)
  let rest := cs.dropWhile (·.isDigit)
  !ds.isEmpty &&
    (match rest with
     | [] => true
     | '.' :: fs => !fs.isEmpty && fs.all (·.isDigit)
     | _ => false)

/-- The source's pattern `^-?\d+(\.\d+)?$` (anchored full match). -/
def matchesNumRe (cs : List Char) : Bool :=
  match cs with
  | '-' :: rest => numLitCore rest
  | _ => numLitCore cs

/-- Decimal value of an unsigned numeric literal `digits(.digits)?`. -/
def decOfDigits (sign : Bool) (cs : List Char) : Dec :=
  let ds := cs.takeWhile (·.isDigit)
  let frac :=
    match cs.dropWhile (·.isDigit) with
    | '.' :: fs => fs
    | _ => []
  let mant : Nat := digitsVal (ds ++ frac)
  Dec.norm (if sign then -(mant : Int) else (mant : Int)) frac.length

/-- Python `float(s)` on a string matching the numeric pattern. -/
def pyFloatOfStr (s : String) : Dec :=
  match s.data with
  | '-' :: rest => decOfDigits true rest
  | cs => decOfDigits false cs

/-- The source's `parse_float_safe(v)`: `None` stays `None`, numbers
(`bool` included, an `int` subclass) become their float value, strings are
stripped and accepted only when they match `^-?\d+(\.\d+)?$`, everything
else is `None`. -/
def parse_float_safe (v : PyVal) : Option Dec :=
  match v with
  | .none => Option.none
  | .int n => some ⟨n, 0⟩
  | .float d => some d
  | .bool b => some ⟨if b then 1 else 0, 0⟩
  | .str s =>
      let t := pyStrip s
      if t = "" then Option.none
      else if matchesNumRe t.data then some (pyFloatOfStr t) else Option.none
  | _ => Option.none

/-- Python `x is not None and x == 0.0` on a `parse_float_safe` result
(value equality: a decimal is zero exactly when its mantissa is). -/
def isZeroOpt : Option Dec → Bool
  | some d => d.m == 0
  | Option.none => false

/-- The four nutrition keys inspected throughout the source. -/
def keys4 : List String := ["calories_estimate", "protein_g", "carbs_g", "fat_g"]

/-- Field test inside `item_has_nutrition`: an `int`/`float` (or `bool`)
value, or a non-blank string matching the numeric pattern. -/
def hasNumField (v : PyVal) : Bool :=
  pyIsNumeric v ||
    (match v with
     | .str s =>
         let t := pyStrip s
         if t = "" then false else matchesNumRe t.data
     | _ => false)

/-- The source's `item_has_nutrition(it)`. -/
def item_has_nutrition (it : PyVal) : Bool :=
  match it with
  | .dict d => keys4.any fun k => hasNumField (pyGetD d k .none)
  | _ => false

/-- The Analyze tab's missing-nutrition test for a dict item: no numeric
field at all, or all four keys present with values that parse to exactly
zero. -/
def analyzeMissing (d : List (String × PyVal)) : Bool :=
  if !item_has_nutrition (.dict d) then true
  else
    let cal := parse_float_safe (pyGetD d "calories_estimate" .none)
    let prot := parse_float_safe (pyGetD d "protein_g" .none)
    let carbs := parse_float_safe (pyGetD d "carbs_g" .none)
    let fat := parse_float_safe (pyGetD d "fat_g" .none)
    let keys_present := keys4.all fun k => (dictGet d k).isSome
    keys_present && isZeroOpt cal && isZeroOpt prot && isZeroOpt carbs && isZeroOpt fat

/-- The Analyze tab's rendering loop over the filtered items: non-dict
items are skipped outright, dict items classified missing are excluded
from the table and collected separately (the source collects a display
label, `name or json.dumps(it)`; we track the item itself). -/
def classifyRows : List PyVal → List PyVal × List PyVal
  | [] => ([], [])
  | it :: rest =>
      let (shown, miss) := classifyRows rest
      match it with
      | .dict d =>
          if analyzeMissing d then (shown, .dict d :: miss)
          else (.dict d :: shown, miss)
      | _ => (shown, miss)

/-- Python `v[0]`: first element of a list (raising `IndexError` when it
is empty), first character of a string; a dict with string keys raises
`KeyError` for the integer key `0`, any other value `TypeError`. -/
def pyIndex0 (v : PyVal) : Except String PyVal :=
  match v with
  | .list [] => .error "IndexError"
  | .list (x :: _) => .ok x
  | .str s =>
      match s.data with
      | [] => .error "IndexError"
      | c :: _ => .ok (.str (String.mk [c]))
  | .dict _ => .error "KeyError"
  | _ => .error "TypeError"

/-- Python `v.get(k, dflt)`: only dicts have `.get`. -/
def pyGetMethod (v : PyVal) (k : String) (dflt : PyVal) : Except String PyVal :=
  match v with
  | .dict d => .ok (pyGetD d k dflt)
  | _ => .error "AttributeError"

/-- Extraction of the message content from the model response in both
tabs: `resp.get("choices", [{}])[0].get("message", {}).get("content", "")`. -/
def choicesContent (resp : List (String × PyVal)) : Except String PyVal := do
  let choices := pyGetD resp "choices" (.list [.dict []])
  let first ← pyIndex0 choices
  let msg ← pyGetMethod first "message" (.dict [])
  pyGetMethod msg "content" (.str "")

/-- The fixed base instruction of the analysis prompt (`base_prompt`). -/
def base_prompt : String :=
  "\nYou are a nutrition assistant. Given a meal description, return a single JSON object with:\n- items: array of \x7bname, quantity_text, estimated_grams (optional), calories_estimate, protein_g, carbs_g, fat_g\x7d\n- totals: \x7bcalories, protein_g, carbs_g, fat_g\x7d\n- suggestions: array of short suggestions\nReturn ONLY valid JSON.\n"

/-- The per-tag avoidance directive appended when restrictions are
selected. -/
def restrictionDirective : String :=
  " When producing items and suggestions, AVOID foods that violate the listed dietary restrictions. For example, if \x27Vegetarian\x27 is listed, do NOT include meat, fish, poultry, or seafood. If \x27Vegan\x27 is listed, also avoid dairy, eggs, and honey. If \x27Nut-free\x27 is listed, avoid nuts and nut-containing foods. If \x27Gluten-free\x27 is listed, avoid wheat, bread, pasta, and other gluten-containing ingredients. If \x27Dairy-free\x27 is listed, avoid milk, cheese, butter, yogurt, and similar dairy ingredients. If \x27Halal\x27 or \x27Kosher\x27 is listed, avoid pork and other explicitly forbidden foods for those diets. If \x27Others\x27 is listed, assume no automatic restrictions unless specified in the meal description."

/-- The age/gender tailoring guidance appended to every analysis prompt. -/
def age_gender_guidance : String :=
  "Additionally, provide a short list (3-5) of food suggestions tailored to the user\x27s age group and gender. Be specific and practical: for children (0-6, 7-12) recommend softer, easy-to-eat, nutrient-dense finger foods and pediatric-appropriate portions; for teenagers and young adults (13-24) recommend balanced meals with adequate protein and energy for growth and activity; for adults (25-49) recommend balanced portion sizes and varied nutrients; for older adults (50-59, >60) recommend softer, easy-to-chew, nutrient-dense foods higher in protein, calcium, and fiber and emphasize hydration and foods that support digestion. When applicable, mention small practical serving examples (e.g., \x27soft cooked salmon flaked over mashed sweet potato\x27) and avoid recommending foods that contradict dietary restrictions. Also include any small swaps to make common items more appropriate (e.g., \x27use mashed avocado instead of butter\x27 for softer texture)."

/-- The source's `build_prompt(meal_text, gender, age_group,
restrictions_list)`; `meal_text` is accepted but unused, exactly as in the
source. -/
def build_prompt (meal_text gender age_group : String)
    (restrictions_list : List String) : String :=
  let _ := meal_text
  let ctx0 := "User profile: gender=" ++ gender ++ ", age_group=" ++ age_group ++ "."
  let ctx :=
    if restrictions_list.isEmpty then ctx0 ++ " No dietary restrictions."
    else
      ctx0 ++ " Dietary restrictions: " ++ String.intercalate ", " restrictions_list
        ++ "." ++ restrictionDirective
  base_prompt ++ "\n\n" ++ ctx ++ "\n\n" ++ age_gender_guidance

/-- JSON insignificant whitespace. -/
def jsonWs (c : Char) : Bool := c = ' ' || c = '\t' || c = '\n' || c = '\r'

def skipWs (cs : List Char) : List Char := cs.dropWhile jsonWs

def lbraceC : Char := Char.ofNat 123

def rbraceC : Char := Char.ofNat 125

/-- Hex digit value, if any. -/
def hexVal (c : Char) : Option Nat :=
  if c.isDigit then some (c.toNat - 48)
  else if 'a' ≤ c && c ≤ 'f' then some (c.toNat - 87)
  else if 'A' ≤ c && c ≤ 'F' then some (c.toNat - 55)
  else Option.none

/-- Fraction digits of a JSON number, when a fraction part is present. -/
def fracPart : List Char → Option (List Char × List Char)
  | '.' :: r =>
      let fs := r.takeWhile (·.isDigit)
      if fs.isEmpty then Option.none
      else some (fs, r.dropWhile (·.isDigit))
  | cs => some ([], cs)

/-- Exponent of a JSON number: `some e` when an `e`/`E` part is present. -/
def expPart : List Char → Option (Option Int × List Char)
  | c :: r =>
      if c = 'e' || c = 'E' then
        let (neg, r1) : Bool × List Char :=
          match r with
          | '+' :: t => (false, t)
          | '-' :: t => (true, t)
          | _ => (false, r)
        let ds := r1.takeWhile (·.isDigit)
        if ds.isEmpty then Option.none
        else
          some (some (if neg then -(digitsVal ds : Int) else (digitsVal ds : Int)),
            r1.dropWhile (·.isDigit))
      else some (Option.none, c :: r)
  | [] => some (Option.none, [])

/-- Parse of a JSON number: an `int` when there is neither fraction nor
exponent (as `json.loads` produces a Python `int` there), otherwise a
float with the exact decimal value. -/
def parseNum (cs : List Char) : Option (PyVal × List Char) :=
  let (neg, cs1) : Bool × List Char :=
    match cs with
    | '-' :: r => (true, r)
    | _ => (false, cs)
  let ip := cs1.takeWhile (·.isDigit)
  let r1 := cs1.dropWhile (·.isDigit)
  if ip.isEmpty then Option.none
  else if 1 < ip.length && ip.headD 'x' = '0' then Option.none
  else
    match fracPart r1 with
    | Option.none => Option.none
    | some (fs, r2) =>
        match expPart r2 with
        | Option.none => Option.none
        | some (ex, r3) =>
            let mant : Int :=
              if neg then -(digitsVal (ip ++ fs) : Int) else (digitsVal (ip ++ fs) : Int)
            match fs, ex with
            | [], Option.none => some (.int mant, r3)
            | _, _ =>
                let net : Int := (fs.length : Int) - ex.getD 0
                if 0 ≤ net then some (.float (Dec.norm mant net.toNat), r3)
                else some (.float ⟨mant * pow10 (-net).toNat, 0⟩, r3)

/-- Literal keyword match (the tail of `true` / `false` / `null`). -/
def expectLit (lit : List Char) (cs : List Char) (v : PyVal) :
    Option (PyVal × List Char) :=
  match lit, cs with
  | [], rest => some (v, rest)
  | l :: ls, c :: rest => if c = l then expectLit ls rest v else Option.none
  | _ :: _, [] => Option.none

/-- JSON string body after the opening quote, with the escapes `json`
accepts; raw control characters are rejected (strict mode). -/
def parseStr (fuel : Nat) (cs : List Char) (acc : List Char) :
    Option (String × List Char) :=
  match fuel, cs with
  | 0, _ => Option.none
  | _, [] => Option.none
  | fuel + 1, c :: rest =>
      if c = '"' then some (String.mk acc.reverse, rest)
      else if c = '\\' then
        match rest with
        | [] => Option.none
        | e :: r2 =>
            if e = '"' then parseStr fuel r2 ('"' :: acc)
            else if e = '\\' then parseStr fuel r2 ('\\' :: acc)
            else if e = '/' then parseStr fuel r2 ('/' :: acc)
            else if e = 'b' then parseStr fuel r2 ('\x08' :: acc)
            else if e = 'f' then parseStr fuel r2 ('\x0c' :: acc)
            else if e = 'n' then parseStr fuel r2 ('\n' :: acc)
            else if e = 'r' then parseStr fuel r2 ('\r' :: acc)
            else if e = 't' then parseStr fuel r2 ('\t' :: acc)
            else if e = 'u' then
              match r2 with
              | h1 :: h2 :: h3 :: h4 :: r3 =>
                  match hexVal h1, hexVal h2, hexVal h3, hexVal h4 with
                  | some a, some b, some cc, some dd =>
                      parseStr fuel r3
                        (Char.ofNat (((a * 16 + b) * 16 + cc) * 16 + dd) :: acc)
                  | _, _, _, _ => Option.none
              | _ => Option.none
            else Option.none
      else if c.toNat < 32 then Option.none
      else parseStr fuel rest (c :: acc)

mutual

/-- One JSON value, starting at (possibly padded) `cs`. -/
def parseVal (fuel : Nat) (cs : List Char) : Option (PyVal × List Char) :=
  match fuel with
  | 0 => Option.none
  | fuel + 1 =>
      match skipWs cs with
      | [] => Option.none
      | c :: rest =>
          if c = lbraceC then parseObjStart fuel rest
          else if c = '[' then parseArrStart fuel rest
          else if c = '"' then
            match parseStr fuel rest [] with
            | some (s, r) => some (.str s, r)
            | Option.none => Option.none
          else if c = 't' then expectLit ['r', 'u', 'e'] rest (.bool true)
          else if c = 'f' then expectLit ['a', 'l', 's', 'e'] rest (.bool false)
          else if c = 'n' then expectLit ['u', 'l', 'l'] rest .none
          else parseNum (c :: rest)

/-- Object body right after the opening brace. -/
def parseObjStart (fuel : Nat) (cs : List Char) : Option (PyVal × List Char) :=
  match fuel with
  | 0 => Option.none
  | fuel + 1 =>
      match skipWs cs with
      | c :: rest =>
          if c = rbraceC then some (.dict [], rest)
          else parseMembers fuel (c :: rest) []
      | [] => Option.none

/-- Object members `"key": value (, "key": value)*` followed by the
closing brace.  A duplicate key overwrites the earlier value in place,
as a Python dict does. -/
def parseMembers (fuel : Nat) (cs : List Char)
    (acc : List (String × PyVal)) : Option (PyVal × List Char) :=
  match fuel with
  | 0 => Option.none
  | fuel + 1 =>
      match skipWs cs with
      | '"' :: rest =>
          match parseStr fuel rest [] with
          | some (k, r1) =>
              match skipWs r1 with
              | ':' :: r2 =>
                  match parseVal fuel r2 with
                  | some (v, r3) =>
                      let acc := setKey acc k v
                      match skipWs r3 with
                      | ',' :: r4 => parseMembers fuel r4 acc
                      | c :: r4 =>
                          if c = rbraceC then some (.dict acc, r4) else Option.none
                      | [] => Option.none
                  | Option.none => Option.none
              | _ => Option.none
          | Option.none => Option.none
      | _ => Option.none

/-- Array body right after the opening bracket. -/
def parseArrStart (fuel : Nat) (cs : List Char) : Option (PyVal × List Char) :=
  match fuel with
  | 0 => Option.none
  | fuel + 1 =>
      match skipWs cs with
      | ']' :: rest => some (.list [], rest)
      | cs' => parseElems fuel cs' []

/-- Array elements `value (, value)*` followed by the closing bracket. -/
def parseElems (fuel : Nat) (cs : List Char) (acc : List PyVal) :
    Option (PyVal × List Char) :=
  match fuel with
  | 0 => Option.none
  | fuel + 1 =>
      match parseVal fuel cs with
      | some (v, r1) =>
          match skipWs r1 with
          | ',' :: r2 => parseElems fuel r2 (v :: acc)
          | ']' :: r2 => some (.list (v :: acc).reverse, r2)
          | _ => Option.none
      | Option.none => Option.none

end

/-- Model of `json.loads(s)`: parse one JSON value and require only
whitespace after it.  (The nonstandard `NaN`/`Infinity` extension of the
Python parser is not modelled; no claim concerns it.) -/
def jsonLoads (s : String) : Option PyVal :=
  match parseVal (2 * s.data.length + 4) s.data with
  | some (v, rest) => if (skipWs rest).isEmpty then some v else Option.none
  | Option.none => Option.none

/-- Span matched by `re.search(r"\x7b[\s\S]*\x7d", text)`: from the first
opening brace to the last closing brace, when the latter comes after the
former; `None` otherwise. -/
def braceSpan (s : String) : Option String :=
  let cs := s.data
  match cs.findIdx? (· = lbraceC) with
  | some i =>
      match cs.reverse.findIdx? (· = rbraceC) with
      | some ir =>
          let j := cs.length - 1 - ir
          if i < j then some (String.mk ((cs.drop i).take (j - i + 1)))
          else Option.none
      | Option.none => Option.none
  | Option.none => Option.none

/-- The source's `extract_json(text)`: strict parse of the whole text,
else parse of the brace span, else the `raw` sentinel. -/
def extract_json (text : String) : PyVal :=
  match jsonLoads text with
  | some v => v
  | Option.none =>
      match braceSpan text with
      | some sub =>
          match jsonLoads sub with
          | some v => v
          | Option.none => .dict [("raw", .str text)]
      | Option.none => .dict [("raw", .str text)]

/-!
Specification-side definitions.  These follow the wording of the
specification (sums over the item list as rational numbers, decimal
rounding on rationals, the spec's classification predicate) and are
compared against the embedded pipeline above.
-/

/-- Rounding half to even at one decimal place on rationals — the spec's
"rounded to 1 decimal place". -/
def round1Q (q : ℚ) : ℚ :=
  let x := 10 * q
  let n := ⌊x⌋
  let f := x - (n : ℚ)
  let m : Int :=
    if f < 1 / 2 then n
    else if 1 / 2 < f then n + 1
    else if n.emod 2 = 0 then n else n + 1
  (m : ℚ) / 10

/-- Contribution of one item to one totals field, counting the field only
when it is present with an `int`/`float` value (the code's notion of
numeric). -/
def itemFieldQ (it : PyVal) (key : String) : ℚ :=
  match it with
  | .dict d =>
      match dictGet d key with
      | some v => if pyIsNumeric v then pyToQ v else 0
      | Option.none => 0
  | _ => 0

/-- Sum of one nutrition field over an item list under the code's notion
of numeric. -/
def sumFieldQ (items : List PyVal) (key : String) : ℚ :=
  (items.map (itemFieldQ · key)).sum

/-- Contribution of one item to one totals field under the claim's notion
of numeric, where a numeric string such as `"120"` also counts (modelled
by `parse_float_safe`). -/
def itemFieldSpecQ (it : PyVal) (key : String) : ℚ :=
  match it with
  | .dict d =>
      match dictGet d key with
      | some v =>
          match parse_float_safe v with
          | some dc => dc.toQ
          | Option.none => 0
      | Option.none => 0
  | _ => 0

/-- Sum of one nutrition field over an item list under the claim's notion
of numeric. -/
def sumFieldSpec (items : List PyVal) (key : String) : ℚ :=
  (items.map (itemFieldSpecQ · key)).sum

/-- One item contributes some numeric (`int`/`float`) nutrition field. -/
def itemAnyNumeric (it : PyVal) : Bool :=
  match it with
  | .dict d =>
      keys4.any fun k =>
        match dictGet d k with
        | some v => pyIsNumeric v
        | Option.none => false
  | _ => false

def anyNumericItems (items : List PyVal) : Bool := items.any itemAnyNumeric

/-- The claim's wording of the missing-nutrition classification: no
numeric field at all, or all four fields present and numerically parsing
to exactly zero. -/
def missingSpec (d : List (String × PyVal)) : Bool :=
  !item_has_nutrition (.dict d) ||
    (keys4.all (fun k => (dictGet d k).isSome) &&
     keys4.all fun k => isZeroOpt (parse_float_safe (pyGetD d k .none)))

/-- The early-return test of `filter_items_by_restrictions`: the input is
a dict whose `"items"` entry is a list. -/
def hasItemList (p : PyVal) : Bool :=
  match p with
  | .dict d =>
      match dictGet d "items" with
      | some (.list _) => true
      | _ => false
  | _ => false

/-- Items that reach the rendered table: dict items not classified as
missing nutrition. -/
def isShownItem (it : PyVal) : Bool :=
  match it with
  | .dict d => !missingSpec d
  | _ => false

/-- Dict items classified as missing nutrition. -/
def isMissingItem (it : PyVal) : Bool :=
  match it with
  | .dict d => missingSpec d
  | _ => false

/-- The part of `base_prompt` before the JSON-only instruction. -/
def promptA : String :=
  "\nYou are a nutrition assistant. Given a meal description, return a single JSON object with:\n- items: array of \x7bname, quantity_text, estimated_grams (optional), calories_estimate, protein_g, carbs_g, fat_g\x7d\n- totals: \x7bcalories, protein_g, carbs_g, fat_g\x7d\n- suggestions: array of short suggestions\n"

/-!
Theorems.  General lemmas about the embedding first, then one theorem per
claim of the specification, with witnesses and counterexamples at
concrete inputs.
-/

theorem strDataAppend (a b : String) : (a ++ b).data = a.data ++ b.data := by
  cases a; cases b; rfl

theorem dictGet_setKey_self (d : List (String × PyVal)) (k : String) (v : PyVal) :
    dictGet (setKey d k v) k = some v := by
  induction d with
  | nil => simp [setKey, dictGet]
  | cons kv rest ih =>
      obtain ⟨k', v'⟩ := kv
      by_cases h : k' = k <;> simp [setKey, dictGet, h, ih]

theorem dictGet_setKey_ne (d : List (String × PyVal)) (k k' : String) (v : PyVal)
    (h : k' ≠ k) : dictGet (setKey d k' v) k = dictGet d k := by
  induction d with
  | nil => simp [setKey, dictGet, h]
  | cons kv rest ih =>
      obtain ⟨k0, v0⟩ := kv
      by_cases h0 : k0 = k' <;> simp [setKey, dictGet, h0, ih]
      · subst h0
        simp [h]

theorem setKey_self (d : List (String × PyVal)) (k : String) (v : PyVal)
    (h : dictGet d k = some v) : setKey d k v = d := by
  induction d with
  | nil => simp [dictGet] at h
  | cons kv rest ih =>
      obtain ⟨k0, v0⟩ := kv
      by_cases h0 : k0 = k
      · subst h0
        simp [dictGet] at h
        simp [setKey, h]
      · simp [dictGet, h0] at h
        simp [setKey, h0, ih h]

/-- C4: under the keyword restriction filter, "Grilled chicken breast"
with restriction set `{Vegetarian}` is removed; "donut" with `{Nut-free}`
is NOT removed (the `nut`/`donut` exception); and with `{Vegan}`,
"scrambled eggs" is removed while "steamed broccoli" is kept (totals
recomputed from broccoli alone). -/
theorem c4_keyword_filter_concrete_cases :
    violates_restrictions (.str "Grilled chicken breast") ["Vegetarian"] = .ok true ∧
    violates_restrictions (.str "donut") ["Nut-free"] = .ok false ∧
    filter_items_by_restrictions
        (.dict [("items", .list
          [.dict [("name", .str "scrambled eggs"), ("calories_estimate", .int 140)],
           .dict [("name", .str "steamed broccoli"), ("calories_estimate", .int 55)]])])
        ["Vegan"] =
      .ok (.dict
        [("items", .list
          [.dict [("name", .str "steamed broccoli"), ("calories_estimate", .int 55)]]),
         ("totals", .dict [("calories", .int 55), ("protein_g", .float ⟨0, 0⟩),
           ("carbs_g", .float ⟨0, 0⟩), ("fat_g", .float ⟨0, 0⟩)])],
        ["scrambled eggs"]) :=
  ⟨rfl, rfl, rfl⟩

/-- C5: `extract_json` is total by construction and follows the
documented algorithm: the strict parse of the whole text when it
succeeds, otherwise the parse of the greedy first-brace-to-last-brace
span when that succeeds, otherwise the `raw` sentinel; and it maps the
two documented examples accordingly. -/
theorem c5_extract_json_algorithm :
    (∀ t v, jsonLoads t = some v → extract_json t = v) ∧
    (∀ t sub v, jsonLoads t = Option.none → braceSpan t = some sub →
      jsonLoads sub = some v → extract_json t = v) ∧
    (∀ t sub, jsonLoads t = Option.none → braceSpan t = some sub →
      jsonLoads sub = Option.none → extract_json t = .dict [("raw", .str t)]) ∧
    (∀ t, jsonLoads t = Option.none → braceSpan t = Option.none →
      extract_json t = .dict [("raw", .str t)]) ∧
    extract_json "Here you go: \x7b\"items\": []\x7d Thanks!" =
      .dict [("items", .list [])] ∧
    extract_json "not json at all" = .dict [("raw", .str "not json at all")] := by
  refine ⟨?_, ?_, ?_, ?_, rfl, rfl⟩ <;> intros <;> simp [extract_json, *]

/-- Witness for C5 at a concrete input: the strict-parse branch. -/
theorem c5_extract_json_algorithm_witness : extract_json "[1]" = .list [.int 1] :=
  c5_extract_json_algorithm.1 "[1]" (.list [.int 1]) rfl

/-- C7: with the `"choices"` key missing the content defaults to the
empty string, but a present-and-empty `choices` list raises `IndexError`
(`.get("choices", [{}])[0]` only guards the missing case), so the claim's
"missing or empty" tolerance does not hold for the empty case. -/
theorem c7_choices_missing_ok_empty_raises :
    choicesContent [] = .ok (.str "") ∧
    choicesContent [("choices", .list [])] = .error "IndexError" :=
  ⟨rfl, rfl⟩
/-- C8: a non-dict input, or a dict without an item list, passes through
unchanged with an empty removal report, for every restriction set. -/
theorem c8_no_item_list_passthrough (p : PyVal) (rs : List String)
    (h : hasItemList p = false) :
    filter_items_by_restrictions p rs = .ok (p, []) := by
  cases p with
  | dict d =>
      simp only [hasItemList] at h
      simp only [filter_items_by_restrictions]
      cases hv : dictGet d "items" with
      | none => simp [hv]
      | some v => cases v <;> simp_all
  | _ => rfl

/-- Witness for C8 at a concrete non-dict input. -/
theorem c8_no_item_list_passthrough_witness :
    hasItemList (.str "oops") = false ∧
    filter_items_by_restrictions (.str "oops") ["Vegan"] = .ok (.str "oops", []) :=
  ⟨rfl, c8_no_item_list_passthrough (.str "oops") ["Vegan"] rfl⟩
set_option maxRecDepth 4000 in
theorem base_prompt_split :
    base_prompt = promptA ++ "Return ONLY valid JSON." ++ "\n" := rfl

/-- C9: every analysis prompt contains the literal instruction to return
only valid JSON, for every gender, age group, and restriction list. -/
theorem c9_prompt_always_demands_only_json
    (meal gender age : String) (rs : List String) :
    ∃ pre post : List Char,
      (build_prompt meal gender age rs).data =
        pre ++ ("Return ONLY valid JSON.").data ++ post := by
  suffices h : ∀ s : String,
      ∃ pre post : List Char,
        (base_prompt ++ "\n\n" ++ s ++ "\n\n" ++ age_gender_guidance).data =
          pre ++ ("Return ONLY valid JSON.").data ++ post by
    simp only [build_prompt]
    split <;> exact h _
  intro s
  refine ⟨promptA.data,
    ("\n").data ++ ("\n\n").data ++ s.data ++ ("\n\n").data ++ age_gender_guidance.data, ?_⟩
  rw [base_prompt_split]
  simp [strDataAppend]
theorem analyzeMissing_eq_missingSpec (d : List (String × PyVal)) :
    analyzeMissing d = missingSpec d := by
  cases h : item_has_nutrition (.dict d) <;>
    simp [analyzeMissing, missingSpec, h, keys4, Bool.and_assoc]

/-- C6: a dict item is classified "missing nutrition" (excluded from the
rendered breakdown and collected separately) exactly when it has no
numeric nutrition field at all or all four fields are present and
numerically parse to zero; an all-zero item is classified missing, not
shown as a zero row. -/
theorem c6_missing_nutrition_classification :
    (∀ items : List PyVal,
      classifyRows items =
        (items.filter isShownItem, items.filter isMissingItem)) ∧
    classifyRows
        [.dict [("name", .str "water"), ("calories_estimate", .int 0),
          ("protein_g", .int 0), ("carbs_g", .int 0), ("fat_g", .int 0)]] =
      ([], [.dict [("name", .str "water"), ("calories_estimate", .int 0),
          ("protein_g", .int 0), ("carbs_g", .int 0), ("fat_g", .int 0)]]) := by
  constructor
  · intro items
    induction items with
    | nil => rfl
    | cons it rest ih =>
        cases it <;>
          simp [classifyRows, ih, List.filter, isShownItem, isMissingItem,
            analyzeMissing_eq_missingSpec]
        case dict d => cases h : missingSpec d <;> simp [h]
  · rfl
theorem violates_restrictions_nil (n : PyVal) :
    violates_restrictions n [] = .ok false := by
  simp [violates_restrictions]

theorem processItems_kept_ok (items : List PyVal) (rs : List String)
    (kept : List PyVal) (removed : List String)
    (h : processItems items rs = .ok (kept, removed)) :
    ∀ it ∈ kept, violates_restrictions (getName it) rs = .ok false := by
  induction items generalizing kept removed with
  | nil =>
      simp only [processItems, Except.ok.injEq, Prod.mk.injEq] at h
      obtain ⟨h1, _⟩ := h
      subst h1
      intro x hx
      simp at hx
  | cons it rest ih =>
      simp only [processItems] at h
      cases hv : violates_restrictions (getName it) rs with
      | error e => simp [hv] at h
      | ok v =>
          cases hrest : processItems rest rs with
          | error e => simp [hv, hrest] at h
          | ok pr =>
              obtain ⟨k, r⟩ := pr
              cases v with
              | true =>
                  simp only [hv, hrest, if_true, Except.ok.injEq, Prod.mk.injEq] at h
                  obtain ⟨h1, _⟩ := h
                  subst h1
                  exact ih k r hrest
              | false =>
                  simp only [hv, hrest, if_false, Except.ok.injEq, Prod.mk.injEq,
                    Bool.false_eq_true, if_neg] at h
                  obtain ⟨h1, _⟩ := h
                  subst h1
                  intro x hx
                  rcases List.mem_cons.mp hx with hx | hx
                  · subst hx; exact hv
                  · exact ih k r hrest x hx

theorem processItems_all_kept (items : List PyVal) (rs : List String)
    (h : ∀ it ∈ items, violates_restrictions (getName it) rs = .ok false) :
    processItems items rs = .ok (items, []) := by
  induction items with
  | nil => rfl
  | cons it rest ih =>
      have h1 : violates_restrictions (getName it) rs = .ok false :=
        h it (List.mem_cons_self it rest)
      have h2 : processItems rest rs = .ok (rest, []) :=
        ih fun x hx => h x (List.mem_cons_of_mem it hx)
      simp [processItems, h1, h2]

theorem processItems_nil_rs (items : List PyVal) :
    processItems items [] = .ok (items, []) :=
  processItems_all_kept items [] fun it _ => violates_restrictions_nil (getName it)
theorem updField_snd (d : List (String × PyVal)) (k : String) (cur : PyVal) :
    (updField d k cur).2 =
      (match dictGet d k with
       | some v => pyIsNumeric v
       | Option.none => false) := by
  cases h : dictGet d k with
  | none => simp [updField, h]
  | some v => cases hn : pyIsNumeric v <;> simp [updField, h, hn]

theorem addItemTotals_snd (t : TotalsAcc) (b : Bool) (it : PyVal) :
    (addItemTotals (t, b) it).2 = (b || itemAnyNumeric it) := by
  cases it with
  | dict d =>
      rcases h1 : updField d "calories_estimate" t.calories with ⟨c, bc⟩
      rcases h2 : updField d "protein_g" t.protein_g with ⟨p, bp⟩
      rcases h3 : updField d "carbs_g" t.carbs_g with ⟨cb, bcb⟩
      rcases h4 : updField d "fat_g" t.fat_g with ⟨f, bf⟩
      have e1 := updField_snd d "calories_estimate" t.calories
      have e2 := updField_snd d "protein_g" t.protein_g
      have e3 := updField_snd d "carbs_g" t.carbs_g
      have e4 := updField_snd d "fat_g" t.fat_g
      rw [h1] at e1; rw [h2] at e2; rw [h3] at e3; rw [h4] at e4
      simp [addItemTotals, h1, h2, h3, h4, itemAnyNumeric, keys4,
        ← e1, ← e2, ← e3, ← e4, Bool.or_assoc]
  | none => simp [addItemTotals, itemAnyNumeric]
  | bool bb => simp [addItemTotals, itemAnyNumeric]
  | int n => simp [addItemTotals, itemAnyNumeric]
  | float dd => simp [addItemTotals, itemAnyNumeric]
  | str s => simp [addItemTotals, itemAnyNumeric]
  | list xs => simp [addItemTotals, itemAnyNumeric]

theorem computeTotalsFrom_snd (items : List PyVal) :
    ∀ (t0 : TotalsAcc) (b : Bool),
      (computeTotalsFrom (t0, b) items).2 = (b || anyNumericItems items) := by
  induction items with
  | nil => intro t0 b; simp [computeTotalsFrom, anyNumericItems]
  | cons it rest ih =>
      intro t0 b
      simp only [computeTotalsFrom]
      rcases ha : addItemTotals (t0, b) it with ⟨t1, b1⟩
      have hb : b1 = (b || itemAnyNumeric it) := by
        rw [← addItemTotals_snd t0 b it, ha]
      rw [ih t1 b1, hb]
      simp [anyNumericItems, Bool.or_assoc]

theorem computeTotals_snd (kept : List PyVal) :
    (computeTotals kept).2 = anyNumericItems kept := by
  simpa [computeTotals] using computeTotalsFrom_snd kept initTotals false
/-- C2: re-running the filter on its own output with the same restriction
set is a no-op — the parsed value is returned unchanged and the second
removal report is empty. -/
theorem c2_filter_idempotent (p : PyVal) (rs : List String)
    (p1 : PyVal) (rem : List String)
    (h : filter_items_by_restrictions p rs = .ok (p1, rem)) :
    filter_items_by_restrictions p1 rs = .ok (p1, []) := by
  cases p with
  | dict d =>
      rcases hv : dictGet d "items" with _ | v
      · simp only [filter_items_by_restrictions, hv, Except.ok.injEq,
          Prod.mk.injEq] at h
        obtain ⟨h1, _⟩ := h
        subst h1
        simp [filter_items_by_restrictions, hv]
      · cases v with
        | list items =>
            simp only [filter_items_by_restrictions, hv] at h
            cases hp : processItems items rs with
            | error e => rw [hp] at h; simp at h
            | ok pr =>
                obtain ⟨kept, removed⟩ := pr
                simp only [hp] at h
                rcases hct : computeTotals kept with ⟨t, any⟩
                simp only [hct, Except.ok.injEq, Prod.mk.injEq] at h
                obtain ⟨h1, _⟩ := h
                have hkept := processItems_kept_ok items rs kept removed hp
                have hpk : processItems kept rs = .ok (kept, []) :=
                  processItems_all_kept kept rs hkept
                have hd1 : dictGet (setKey d "items" (.list kept)) "items" =
                    some (.list kept) := dictGet_setKey_self d "items" (.list kept)
                cases any with
                | false =>
                    simp only [Bool.false_eq_true, if_false] at h1
                    subst h1
                    simp only [filter_items_by_restrictions, hd1, hpk,
                      setKey_self _ _ _ hd1, hct, Bool.false_eq_true, if_false]
                | true =>
                    simp only [if_true] at h1
                    subst h1
                    have hd2 : dictGet (setKey (setKey d "items" (.list kept))
                        "totals" (totalsDict t)) "items" = some (.list kept) := by
                      rw [dictGet_setKey_ne _ _ _ _ (by decide), hd1]
                    have hd3 : dictGet (setKey (setKey d "items" (.list kept))
                        "totals" (totalsDict t)) "totals" = some (totalsDict t) :=
                      dictGet_setKey_self _ "totals" (totalsDict t)
                    simp only [filter_items_by_restrictions, hd2, hpk,
                      setKey_self _ _ _ hd2, hct, setKey_self _ _ _ hd3]
                    simp
        | none =>
            simp only [filter_items_by_restrictions, hv, Except.ok.injEq,
              Prod.mk.injEq] at h
            obtain ⟨h1, _⟩ := h
            subst h1
            simp [filter_items_by_restrictions, hv]
        | bool bb =>
            simp only [filter_items_by_restrictions, hv, Except.ok.injEq,
              Prod.mk.injEq] at h
            obtain ⟨h1, _⟩ := h
            subst h1
            simp [filter_items_by_restrictions, hv]
        | int n =>
            simp only [filter_items_by_restrictions, hv, Except.ok.injEq,
              Prod.mk.injEq] at h
            obtain ⟨h1, _⟩ := h
            subst h1
            simp [filter_items_by_restrictions, hv]
        | float dd =>
            simp only [filter_items_by_restrictions, hv, Except.ok.injEq,
              Prod.mk.injEq] at h
            obtain ⟨h1, _⟩ := h
            subst h1
            simp [filter_items_by_restrictions, hv]
        | str s =>
            simp only [filter_items_by_restrictions, hv, Except.ok.injEq,
              Prod.mk.injEq] at h
            obtain ⟨h1, _⟩ := h
            subst h1
            simp [filter_items_by_restrictions, hv]
        | dict dd =>
            simp only [filter_items_by_restrictions, hv, Except.ok.injEq,
              Prod.mk.injEq] at h
            obtain ⟨h1, _⟩ := h
            subst h1
            simp [filter_items_by_restrictions, hv]
  | none =>
      simp only [filter_items_by_restrictions, Except.ok.injEq, Prod.mk.injEq] at h
      obtain ⟨h1, _⟩ := h
      subst h1
      rfl
  | bool b =>
      simp only [filter_items_by_restrictions, Except.ok.injEq, Prod.mk.injEq] at h
      obtain ⟨h1, _⟩ := h
      subst h1
      rfl
  | int n =>
      simp only [filter_items_by_restrictions, Except.ok.injEq, Prod.mk.injEq] at h
      obtain ⟨h1, _⟩ := h
      subst h1
      rfl
  | float dd =>
      simp only [filter_items_by_restrictions, Except.ok.injEq, Prod.mk.injEq] at h
      obtain ⟨h1, _⟩ := h
      subst h1
      rfl
  | str s =>
      simp only [filter_items_by_restrictions, Except.ok.injEq, Prod.mk.injEq] at h
      obtain ⟨h1, _⟩ := h
      subst h1
      rfl
  | list xs =>
      simp only [filter_items_by_restrictions, Except.ok.injEq, Prod.mk.injEq] at h
      obtain ⟨h1, _⟩ := h
      subst h1
      rfl
/-- Witness for C2: a concrete run (bacon removed under Vegetarian), then
the second run is a no-op on the result. -/
theorem c2_filter_idempotent_witness :
    filter_items_by_restrictions
        (.dict [("items", .list
            [.dict [("name", .str "apple"), ("calories_estimate", .int 95)]]),
          ("totals", .dict [("calories", .int 95), ("protein_g", .float ⟨0, 0⟩),
            ("carbs_g", .float ⟨0, 0⟩), ("fat_g", .float ⟨0, 0⟩)])])
        ["Vegetarian"] =
      .ok (.dict [("items", .list
            [.dict [("name", .str "apple"), ("calories_estimate", .int 95)]]),
          ("totals", .dict [("calories", .int 95), ("protein_g", .float ⟨0, 0⟩),
            ("carbs_g", .float ⟨0, 0⟩), ("fat_g", .float ⟨0, 0⟩)])], []) :=
  c2_filter_idempotent
    (.dict [("items", .list
        [.dict [("name", .str "bacon strips"), ("calories_estimate", .int 300)],
         .dict [("name", .str "apple"), ("calories_estimate", .int 95)]])])
    ["Vegetarian"]
    (.dict [("items", .list
        [.dict [("name", .str "apple"), ("calories_estimate", .int 95)]]),
      ("totals", .dict [("calories", .int 95), ("protein_g", .float ⟨0, 0⟩),
        ("carbs_g", .float ⟨0, 0⟩), ("fat_g", .float ⟨0, 0⟩)])])
    ["bacon strips"] rfl
/-- Counterexample to C3 as stated: with no surviving numeric field, a
model-supplied totals value is carried over unchanged — the totals field
of the result is present (stale), not unset/absent. -/
theorem c3_counterexample_stale_totals :
    filter_items_by_restrictions
        (.dict [("items", .list [.dict [("name", .str "apple")]]),
          ("totals", .dict [("calories", .int 500)])]) [] =
      .ok (.dict [("items", .list [.dict [("name", .str "apple")]]),
          ("totals", .dict [("calories", .int 500)])], []) ∧
    (dictGet [("items", PyVal.list [.dict [("name", .str "apple")]]),
        ("totals", PyVal.dict [("calories", .int 500)])] "totals").isSome = true :=
  ⟨rfl, rfl⟩

/-- C3 amended: when no surviving item has an `int`/`float` nutrition
field, the filter leaves the `"totals"` entry exactly as it was in the
input — absent stays absent, but a model-supplied totals value is carried
over rather than removed. -/
theorem c3_amended_totals_left_untouched
    (d : List (String × PyVal)) (items kept : List PyVal)
    (rs removed : List String)
    (hd : dictGet d "items" = some (.list items))
    (hp : processItems items rs = .ok (kept, removed))
    (hn : anyNumericItems kept = false) :
    filter_items_by_restrictions (.dict d) rs =
      .ok (.dict (setKey d "items" (.list kept)), removed) ∧
    dictGet (setKey d "items" (.list kept)) "totals" = dictGet d "totals" := by
  constructor
  · rcases hct : computeTotals kept with ⟨t, any⟩
    have h2 : any = false := by
      have hs := computeTotals_snd kept
      rw [hct] at hs
      simp only at hs
      rw [hs, hn]
    subst h2
    simp only [filter_items_by_restrictions, hd, hp, hct, Bool.false_eq_true,
      if_false]
  · exact dictGet_setKey_ne d "totals" "items" (.list kept) (by decide)

/-- Witness for C3 amended: a non-numeric surviving item and a stale
string totals value that is carried over. -/
theorem c3_amended_totals_left_untouched_witness :
    filter_items_by_restrictions
        (.dict [("items", .list [.dict [("name", .str "tea")]]),
          ("totals", .str "stale")]) ["Vegan"] =
      .ok (.dict [("items", .list [.dict [("name", .str "tea")]]),
          ("totals", .str "stale")], []) ∧
    dictGet (setKey [("items", PyVal.list [.dict [("name", .str "tea")]]),
        ("totals", PyVal.str "stale")] "items"
        (.list [.dict [("name", .str "tea")]])) "totals" =
      dictGet [("items", PyVal.list [.dict [("name", .str "tea")]]),
        ("totals", PyVal.str "stale")] "totals" :=
  c3_amended_totals_left_untouched
    [("items", .list [.dict [("name", .str "tea")]]), ("totals", .str "stale")]
    [.dict [("name", .str "tea")]] [.dict [("name", .str "tea")]]
    ["Vegan"] [] rfl rfl rfl

/-- C10: with an empty restriction set and at least one `int`/`float`
nutrition field among the (unchanged) items, the filter still overwrites
the `"totals"` entry with the recomputed sums, so model-supplied totals
are replaced on every analysis, not only after a removal. -/
theorem c10_totals_overwritten_without_removal
    (d : List (String × PyVal)) (items : List PyVal)
    (hd : dictGet d "items" = some (.list items))
    (hn : anyNumericItems items = true) :
    filter_items_by_restrictions (.dict d) [] =
      .ok (.dict (setKey (setKey d "items" (.list items)) "totals"
        (totalsDict (computeTotals items).1)), []) := by
  rcases hct : computeTotals items with ⟨t, any⟩
  have h2 : any = true := by
    have hs := computeTotals_snd items
    rw [hct] at hs
    simp only at hs
    rw [hs, hn]
  subst h2
  simp only [filter_items_by_restrictions, hd, processItems_nil_rs, hct, if_true]

/-- Witness for C10: a model-supplied totals value of 999 kcal is
replaced in place by the recomputed 200 kcal even though nothing was
removed. -/
theorem c10_totals_overwritten_without_removal_witness :
    filter_items_by_restrictions
        (.dict [("items", .list
            [.dict [("name", .str "rice"), ("calories_estimate", .int 200)]]),
          ("totals", .dict [("calories", .int 999)])]) [] =
      .ok (.dict [("items", .list
            [.dict [("name", .str "rice"), ("calories_estimate", .int 200)]]),
          ("totals", .dict [("calories", .int 200), ("protein_g", .float ⟨0, 0⟩),
            ("carbs_g", .float ⟨0, 0⟩), ("fat_g", .float ⟨0, 0⟩)])], []) := by
  have h := c10_totals_overwritten_without_removal
    [("items", .list [.dict [("name", .str "rice"), ("calories_estimate", .int 200)]]),
     ("totals", .dict [("calories", .int 999)])]
    [.dict [("name", .str "rice"), ("calories_estimate", .int 200)]] rfl rfl
  exact h
theorem pow10_pos (e : Nat) : 0 < pow10 e := by
  induction e with
  | zero => norm_num [pow10]
  | succ n ih => simpa [pow10] using mul_pos (by norm_num : (0 : Int) < 10) ih

theorem pow10_add (a b : Nat) : pow10 (a + b) = pow10 a * pow10 b := by
  induction a with
  | zero => simp [pow10]
  | succ n ih => simp [pow10, Nat.succ_add, ih]; ring

theorem pow10_castQ_ne_zero (e : Nat) : ((pow10 e : Int) : ℚ) ≠ 0 := by
  exact_mod_cast (pow10_pos e).ne'

theorem Dec.toQ_norm (e : Nat) : ∀ m : Int, (Dec.norm m e).toQ = Dec.toQ ⟨m, e⟩ := by
  induction e with
  | zero => intro m; rfl
  | succ e ih =>
      intro m
      by_cases h : m.emod 10 = 0
      · have hdvd : (10 : Int) ∣ m := Int.dvd_of_emod_eq_zero h
        have hm : 10 * m.ediv 10 = m := Int.mul_ediv_cancel' hdvd
        rw [Dec.norm, if_pos h, ih]
        simp only [Dec.toQ, pow10]
        conv_rhs => rw [← hm]
        push_cast
        have h10 : ((pow10 e : Int) : ℚ) ≠ 0 := pow10_castQ_ne_zero e
        field_simp
        ring
      · rw [Dec.norm, if_neg h]

theorem Dec.toQ_add (a b : Dec) : (Dec.add a b).toQ = a.toQ + b.toQ := by
  rcases a with ⟨ma, ea⟩
  rcases b with ⟨mb, eb⟩
  by_cases hle : ea ≤ eb
  · rw [Dec.add, if_pos hle, Dec.toQ_norm]
    have hb : pow10 eb = pow10 (eb - ea) * pow10 ea := by
      rw [← pow10_add, Nat.sub_add_cancel hle]
    simp only [Dec.toQ, hb]
    push_cast
    have h1 : ((pow10 (eb - ea) : Int) : ℚ) ≠ 0 := pow10_castQ_ne_zero _
    have h2 : ((pow10 ea : Int) : ℚ) ≠ 0 := pow10_castQ_ne_zero _
    field_simp
    ring
  · rw [Dec.add, if_neg hle, Dec.toQ_norm]
    have hle' : eb ≤ ea := Nat.le_of_lt (Nat.lt_of_not_le hle)
    have ha : pow10 ea = pow10 (ea - eb) * pow10 eb := by
      rw [← pow10_add, Nat.sub_add_cancel hle']
    simp only [Dec.toQ, ha]
    push_cast
    have h1 : ((pow10 (ea - eb) : Int) : ℚ) ≠ 0 := pow10_castQ_ne_zero _
    have h2 : ((pow10 eb : Int) : ℚ) ≠ 0 := pow10_castQ_ne_zero _
    field_simp
    ring
theorem round1Q_int (n : Int) : round1Q (n : ℚ) = n := by
  have hx : (10 : ℚ) * (n : ℚ) = ((10 * n : Int) : ℚ) := by push_cast; ring
  simp only [round1Q, hx, Int.floor_intCast]
  rw [if_pos (by norm_num)]
  push_cast
  field_simp

theorem round1Q_tenth (n : Int) : round1Q ((n : ℚ) / 10) = (n : ℚ) / 10 := by
  have hx : (10 : ℚ) * ((n : ℚ) / 10) = ((n : Int) : ℚ) := by field_simp
  simp only [round1Q, hx, Int.floor_intCast]
  rw [if_pos (by norm_num)]

theorem norm_one_toQ (z : Int) : (Dec.norm z 1).toQ = (z : ℚ) / 10 := by
  rw [Dec.toQ_norm]
  simp [Dec.toQ, pow10]

theorem Dec.toQ_round1 (d : Dec) : d.round1.toQ = round1Q d.toQ := by
  rcases d with ⟨m, e⟩
  match e with
  | 0 =>
      have ht : Dec.toQ ⟨m, 0⟩ = (m : ℚ) := by simp [Dec.toQ, pow10]
      rw [Dec.round1, if_pos (by norm_num)]
      rw [ht]
      exact (round1Q_int m).symm
  | 1 =>
      have ht : Dec.toQ ⟨m, 1⟩ = (m : ℚ) / 10 := by
        simp [Dec.toQ, pow10]
      rw [Dec.round1, if_pos (by norm_num)]
      rw [ht]
      exact (round1Q_tenth m).symm
  | (e + 2) =>
      have hp : (0 : Int) < pow10 (e + 1) := pow10_pos (e + 1)
      have hpQ : (0 : ℚ) < ((pow10 (e + 1) : Int) : ℚ) := by exact_mod_cast hp
      have hqr : pow10 (e + 1) * m.ediv (pow10 (e + 1)) + m.emod (pow10 (e + 1)) = m :=
        Int.ediv_add_emod m (pow10 (e + 1))
      have hr0 : (0 : Int) ≤ m.emod (pow10 (e + 1)) := Int.emod_nonneg m hp.ne'
      have hrp : m.emod (pow10 (e + 1)) < pow10 (e + 1) := Int.emod_lt_of_pos m hp
      have hpow : ((pow10 (e + 2) : Int) : ℚ) = 10 * ((pow10 (e + 1) : Int) : ℚ) := by
        exact_mod_cast congrArg (fun z : Int => (z : ℚ))
          (rfl : pow10 (e + 2) = 10 * pow10 (e + 1))
      have hcast : (m : ℚ) =
          ((pow10 (e + 1) : Int) : ℚ) * ((m.ediv (pow10 (e + 1)) : Int) : ℚ) +
            ((m.emod (pow10 (e + 1)) : Int) : ℚ) := by exact_mod_cast hqr.symm
      have hx : (10 : ℚ) * Dec.toQ ⟨m, e + 2⟩ =
          ((m.ediv (pow10 (e + 1)) : Int) : ℚ) +
            ((m.emod (pow10 (e + 1)) : Int) : ℚ) / ((pow10 (e + 1) : Int) : ℚ) := by
        simp only [Dec.toQ, hpow, hcast]
        field_simp
        ring
      have hfrac0 : (0 : ℚ) ≤
          ((m.emod (pow10 (e + 1)) : Int) : ℚ) / ((pow10 (e + 1) : Int) : ℚ) :=
        div_nonneg (by exact_mod_cast hr0) hpQ.le
      have hfrac1 :
          ((m.emod (pow10 (e + 1)) : Int) : ℚ) / ((pow10 (e + 1) : Int) : ℚ) < 1 :=
        (div_lt_one hpQ).mpr (by exact_mod_cast hrp)
      have hfl : ⌊(10 : ℚ) * Dec.toQ ⟨m, e + 2⟩⌋ = m.ediv (pow10 (e + 1)) := by
        rw [hx, Int.floor_eq_iff]
        constructor
        · simpa using hfrac0
        · linarith
      have hsub : (10 : ℚ) * Dec.toQ ⟨m, e + 2⟩ -
          ((m.ediv (pow10 (e + 1)) : Int) : ℚ) =
          ((m.emod (pow10 (e + 1)) : Int) : ℚ) / ((pow10 (e + 1) : Int) : ℚ) := by
        rw [hx]; ring
      have hlt : ((10 : ℚ) * Dec.toQ ⟨m, e + 2⟩ -
            ((m.ediv (pow10 (e + 1)) : Int) : ℚ) < 1 / 2) ↔
          2 * m.emod (pow10 (e + 1)) < pow10 (e + 1) := by
        rw [hsub, div_lt_iff₀ hpQ]
        constructor
        · intro h
          have h2 : (2 : ℚ) * ((m.emod (pow10 (e + 1)) : Int) : ℚ) <
              ((pow10 (e + 1) : Int) : ℚ) := by linarith
          exact_mod_cast h2
        · intro h
          have h2 : (2 : ℚ) * ((m.emod (pow10 (e + 1)) : Int) : ℚ) <
              ((pow10 (e + 1) : Int) : ℚ) := by exact_mod_cast h
          linarith
      have hgt : (1 / 2 < (10 : ℚ) * Dec.toQ ⟨m, e + 2⟩ -
            ((m.ediv (pow10 (e + 1)) : Int) : ℚ)) ↔
          pow10 (e + 1) < 2 * m.emod (pow10 (e + 1)) := by
        rw [hsub, lt_div_iff₀ hpQ]
        constructor
        · intro h
          have h2 : ((pow10 (e + 1) : Int) : ℚ) <
              (2 : ℚ) * ((m.emod (pow10 (e + 1)) : Int) : ℚ) := by linarith
          exact_mod_cast h2
        · intro h
          have h2 : ((pow10 (e + 1) : Int) : ℚ) <
              (2 : ℚ) * ((m.emod (pow10 (e + 1)) : Int) : ℚ) := by exact_mod_cast h
          linarith
      rw [Dec.round1, if_neg (by show ¬(e + 2 ≤ 1); omega)]
      simp only [show e + 2 - 1 = e + 1 from rfl]
      simp only [round1Q, hfl, norm_one_toQ]
      congr 1
      by_cases h1 : 2 * m.emod (pow10 (e + 1)) < pow10 (e + 1)
      · rw [if_pos h1, if_pos (hlt.mpr h1)]
      · rw [if_neg h1, if_neg (fun hc => h1 (hlt.mp hc))]
        by_cases h2 : pow10 (e + 1) < 2 * m.emod (pow10 (e + 1))
        · rw [if_pos h2, if_pos (hgt.mpr h2)]
        · rw [if_neg h2, if_neg (fun hc => h2 (hgt.mp hc))]
theorem toQ_zero_exp (z : Int) : (Dec.mk z 0).toQ = (z : ℚ) := by
  simp [Dec.toQ, pow10]

theorem pyToQ_pyAddNum (a b : PyVal) : pyToQ (pyAddNum a b) = pyToQ a + pyToQ b := by
  cases a <;> cases b <;>
    simp [pyAddNum, toIntLike, pyToQ, pyToDec, Dec.toQ_add, toQ_zero_exp]

theorem round1Q_zero : round1Q 0 = 0 := by simpa using round1Q_int 0

theorem round1Q_one : round1Q 1 = 1 := by simpa using round1Q_int 1

theorem pyToQ_pyRound1 (v : PyVal) : pyToQ (pyRound1 v) = round1Q (pyToQ v) := by
  cases v with
  | int n =>
      have h : pyToQ (.int n) = (n : ℚ) := by simp [pyToQ, pyToDec, Dec.toQ, pow10]
      simp [pyRound1, h, round1Q_int]
  | float d => simp [pyRound1, pyToQ, pyToDec, Dec.toQ_round1]
  | bool b =>
      cases b <;>
        simp [pyRound1, pyToQ, pyToDec, Dec.toQ, pow10, round1Q_zero, round1Q_one]
  | none => simp [pyRound1, pyToQ, pyToDec, Dec.toQ, pow10, round1Q_zero]
  | str s => simp [pyRound1, pyToQ, pyToDec, Dec.toQ, pow10, round1Q_zero]
  | list xs => simp [pyRound1, pyToQ, pyToDec, Dec.toQ, pow10, round1Q_zero]
  | dict dd => simp [pyRound1, pyToQ, pyToDec, Dec.toQ, pow10, round1Q_zero]

theorem sumFieldQ_cons (it : PyVal) (rest : List PyVal) (key : String) :
    sumFieldQ (it :: rest) key = itemFieldQ it key + sumFieldQ rest key := by
  simp [sumFieldQ]

theorem updField_fst (d : List (String × PyVal)) (k : String) (cur : PyVal) :
    pyToQ (updField d k cur).1 = pyToQ cur + itemFieldQ (.dict d) k := by
  cases h : dictGet d k with
  | none => simp [updField, itemFieldQ, h]
  | some v =>
      cases hn : pyIsNumeric v <;>
        simp [updField, itemFieldQ, h, hn, pyToQ_pyAddNum]

theorem addItemTotals_fst_toQ (t : TotalsAcc) (b : Bool) (it : PyVal) :
    pyToQ (addItemTotals (t, b) it).1.calories =
      pyToQ t.calories + itemFieldQ it "calories_estimate" ∧
    pyToQ (addItemTotals (t, b) it).1.protein_g =
      pyToQ t.protein_g + itemFieldQ it "protein_g" ∧
    pyToQ (addItemTotals (t, b) it).1.carbs_g =
      pyToQ t.carbs_g + itemFieldQ it "carbs_g" ∧
    pyToQ (addItemTotals (t, b) it).1.fat_g =
      pyToQ t.fat_g + itemFieldQ it "fat_g" := by
  cases it with
  | dict d =>
      rcases h1 : updField d "calories_estimate" t.calories with ⟨c, bc⟩
      rcases h2 : updField d "protein_g" t.protein_g with ⟨p, bp⟩
      rcases h3 : updField d "carbs_g" t.carbs_g with ⟨cb, bcb⟩
      rcases h4 : updField d "fat_g" t.fat_g with ⟨f, bf⟩
      have e1 := updField_fst d "calories_estimate" t.calories
      have e2 := updField_fst d "protein_g" t.protein_g
      have e3 := updField_fst d "carbs_g" t.carbs_g
      have e4 := updField_fst d "fat_g" t.fat_g
      rw [h1] at e1; rw [h2] at e2; rw [h3] at e3; rw [h4] at e4
      simp only [addItemTotals, h1, h2, h3, h4]
      exact ⟨e1, e2, e3, e4⟩
  | none => simp [addItemTotals, itemFieldQ]
  | bool bb => simp [addItemTotals, itemFieldQ]
  | int n => simp [addItemTotals, itemFieldQ]
  | float dd => simp [addItemTotals, itemFieldQ]
  | str s => simp [addItemTotals, itemFieldQ]
  | list xs => simp [addItemTotals, itemFieldQ]

theorem computeTotalsFrom_fst_toQ (items : List PyVal) :
    ∀ (t0 : TotalsAcc) (b : Bool),
      pyToQ ((computeTotalsFrom (t0, b) items).1.calories) =
        pyToQ t0.calories + sumFieldQ items "calories_estimate" ∧
      pyToQ ((computeTotalsFrom (t0, b) items).1.protein_g) =
        pyToQ t0.protein_g + sumFieldQ items "protein_g" ∧
      pyToQ ((computeTotalsFrom (t0, b) items).1.carbs_g) =
        pyToQ t0.carbs_g + sumFieldQ items "carbs_g" ∧
      pyToQ ((computeTotalsFrom (t0, b) items).1.fat_g) =
        pyToQ t0.fat_g + sumFieldQ items "fat_g" := by
  induction items with
  | nil => intro t0 b; simp [computeTotalsFrom, sumFieldQ]
  | cons it rest ih =>
      intro t0 b
      simp only [computeTotalsFrom]
      rcases ha : addItemTotals (t0, b) it with ⟨t1, b1⟩
      have hfields := addItemTotals_fst_toQ t0 b it
      rw [ha] at hfields
      obtain ⟨hc, hpr, hcb, hf⟩ := hfields
      obtain ⟨ic, ip, icb, ifat⟩ := ih t1 b1
      refine ⟨?_, ?_, ?_, ?_⟩
      · rw [ic, hc, sumFieldQ_cons]; ring
      · rw [ip, hpr, sumFieldQ_cons]; ring
      · rw [icb, hcb, sumFieldQ_cons]; ring
      · rw [ifat, hf, sumFieldQ_cons]; ring

theorem computeTotals_fst_toQ (kept : List PyVal) :
    pyToQ ((computeTotals kept).1.calories) = sumFieldQ kept "calories_estimate" ∧
    pyToQ ((computeTotals kept).1.protein_g) = sumFieldQ kept "protein_g" ∧
    pyToQ ((computeTotals kept).1.carbs_g) = sumFieldQ kept "carbs_g" ∧
    pyToQ ((computeTotals kept).1.fat_g) = sumFieldQ kept "fat_g" := by
  have h := computeTotalsFrom_fst_toQ kept initTotals false
  have hz : pyToQ (PyVal.int 0) = 0 := by simp [pyToQ, pyToDec, Dec.toQ, pow10]
  have hzf : pyToQ (PyVal.float ⟨0, 0⟩) = 0 := by simp [pyToQ, pyToDec, Dec.toQ, pow10]
  obtain ⟨hc, hpr, hcb, hf⟩ := h
  refine ⟨?_, ?_, ?_, ?_⟩ <;>
    simp_all [computeTotals, initTotals]
/-- C1 amended: after filtering, each of the four totals fields equals the
sum of that field over surviving items in which the field is present with
an `int`/`float` value (a numeric string such as "120" does NOT
contribute to totals), rounded to 1 decimal place; "numeric contribution"
likewise means an `int`/`float` field. -/
theorem c1_amended_totals_sum_int_float
    (d : List (String × PyVal)) (items kept : List PyVal)
    (rs removed : List String)
    (hd : dictGet d "items" = some (.list items))
    (hp : processItems items rs = .ok (kept, removed))
    (hn : anyNumericItems kept = true) :
    ∃ tc tp tcb tf : PyVal,
      filter_items_by_restrictions (.dict d) rs =
        .ok (.dict (setKey (setKey d "items" (.list kept)) "totals"
          (.dict [("calories", tc), ("protein_g", tp),
            ("carbs_g", tcb), ("fat_g", tf)])), removed) ∧
      pyToQ tc = round1Q (sumFieldQ kept "calories_estimate") ∧
      pyToQ tp = round1Q (sumFieldQ kept "protein_g") ∧
      pyToQ tcb = round1Q (sumFieldQ kept "carbs_g") ∧
      pyToQ tf = round1Q (sumFieldQ kept "fat_g") := by
  rcases hct : computeTotals kept with ⟨t, any⟩
  have hany : any = true := by
    have hs := computeTotals_snd kept
    rw [hct] at hs
    simp only at hs
    rw [hs, hn]
  subst hany
  obtain ⟨hc, hpr, hcb, hf⟩ := computeTotals_fst_toQ kept
  rw [hct] at hc hpr hcb hf
  simp only at hc hpr hcb hf
  refine ⟨pyRound1 t.calories, pyRound1 t.protein_g, pyRound1 t.carbs_g,
    pyRound1 t.fat_g, ?_, ?_, ?_, ?_, ?_⟩
  · simp [filter_items_by_restrictions, hd, hp, hct, totalsDict]
  · rw [pyToQ_pyRound1, hc]
  · rw [pyToQ_pyRound1, hpr]
  · rw [pyToQ_pyRound1, hcb]
  · rw [pyToQ_pyRound1, hf]

/-- Witness for C1 amended at a concrete input (one item, int calories and
float protein, no restrictions). -/
theorem c1_amended_totals_sum_int_float_witness :
    ∃ tc tp tcb tf : PyVal,
      filter_items_by_restrictions
          (.dict [("items", .list [.dict [("name", .str "rice"),
            ("calories_estimate", .int 200), ("protein_g", .float ⟨45, 1⟩)]])]) [] =
        .ok (.dict (setKey (setKey
            [("items", PyVal.list [.dict [("name", .str "rice"),
              ("calories_estimate", .int 200), ("protein_g", .float ⟨45, 1⟩)]])]
            "items" (.list [.dict [("name", .str "rice"),
              ("calories_estimate", .int 200), ("protein_g", .float ⟨45, 1⟩)]]))
          "totals" (.dict [("calories", tc), ("protein_g", tp),
            ("carbs_g", tcb), ("fat_g", tf)])), []) ∧
      pyToQ tc = round1Q (sumFieldQ [.dict [("name", .str "rice"),
        ("calories_estimate", .int 200), ("protein_g", .float ⟨45, 1⟩)]]
        "calories_estimate") ∧
      pyToQ tp = round1Q (sumFieldQ [.dict [("name", .str "rice"),
        ("calories_estimate", .int 200), ("protein_g", .float ⟨45, 1⟩)]]
        "protein_g") ∧
      pyToQ tcb = round1Q (sumFieldQ [.dict [("name", .str "rice"),
        ("calories_estimate", .int 200), ("protein_g", .float ⟨45, 1⟩)]]
        "carbs_g") ∧
      pyToQ tf = round1Q (sumFieldQ [.dict [("name", .str "rice"),
        ("calories_estimate", .int 200), ("protein_g", .float ⟨45, 1⟩)]]
        "fat_g") :=
  c1_amended_totals_sum_int_float
    [("items", .list [.dict [("name", .str "rice"),
      ("calories_estimate", .int 200), ("protein_g", .float ⟨45, 1⟩)]])]
    [.dict [("name", .str "rice"),
      ("calories_estimate", .int 200), ("protein_g", .float ⟨45, 1⟩)]]
    [.dict [("name", .str "rice"),
      ("calories_estimate", .int 200), ("protein_g", .float ⟨45, 1⟩)]]
    [] [] rfl rfl rfl

/-- Counterexample to C1 as stated: a numeric string "120" counts for the
claim's sum (which rounds to 120) but the code ignores it, leaving the
calories total at 0. -/
theorem c1_counterexample_numeric_string_ignored :
    filter_items_by_restrictions
        (.dict [("items", .list [.dict [("name", .str "apple"),
          ("calories_estimate", .str "120"), ("protein_g", .int 1)]])]) [] =
      .ok (.dict [("items", .list [.dict [("name", .str "apple"),
          ("calories_estimate", .str "120"), ("protein_g", .int 1)]]),
        ("totals", .dict [("calories", .int 0), ("protein_g", .float ⟨1, 0⟩),
          ("carbs_g", .float ⟨0, 0⟩), ("fat_g", .float ⟨0, 0⟩)])], []) ∧
    sumFieldSpec [.dict [("name", .str "apple"),
      ("calories_estimate", .str "120"), ("protein_g", .int 1)]]
      "calories_estimate" = 120 ∧
    round1Q 120 = 120 ∧
    pyToQ (.int 0) ≠ (120 : ℚ) := by
  refine ⟨rfl, ?_, ?_, ?_⟩
  · rw [show sumFieldSpec [.dict [("name", .str "apple"),
      ("calories_estimate", .str "120"), ("protein_g", .int 1)]]
      "calories_estimate" = Dec.toQ ⟨120, 0⟩ + 0 from rfl, toQ_zero_exp]
    norm_num
  · simpa using round1Q_int 120
  · rw [show pyToQ (.int 0) = Dec.toQ ⟨0, 0⟩ from rfl, toQ_zero_exp]
    norm_num
